import Mathlib

/-!
Verification of the GhostChatApp ephemeral chat core.

This file shallowly embeds the backend of the repository
(`backend/redis_manager.py`, `backend/websocket_manager.py`,
`backend/proof_of_work.py`, `backend/ghost_identity.py`,
`backend/destruction_engine.py`) as pure Lean functions over explicit
state, and proves or refutes the specification claims about it.

Modelling conventions:
- The Redis store is a record of association lists, one per key family,
  each entry carrying the stored value and the key's TTL
  (`none` = the key never expires, mirroring `redis.set` vs `redis.setex`).
- Time and randomness (timestamps, `secrets.token_hex` ids) are passed in
  as explicit parameters; no claim depends on their distribution.
- Floating-point presentation fields of room records (`heat_level`) and
  display-name cosmetics (md5-derived names, avatars) are not part of any
  claim and are not modelled.
- `async` methods are sequential in the source (each handler awaits every
  store call); they are embedded as ordinary state-passing functions.
-/

set_option maxRecDepth 100000

namespace GhostChat

/-! ## Association-list store primitives

Redis string/hash/set keys are modelled as association lists from key to
value.  `aget` is `GET`/lookup, `aset` is `SET`/`SETEX` (overwrite or
append), `adel` is `DEL`. -/

def aget {α : Type} (k : String) : List (String × α) → Option α
  | [] => none
  | (k', v) :: t => if k' = k then some v else aget k t

def aset {α : Type} (k : String) (v : α) : List (String × α) → List (String × α)
  | [] => [(k, v)]
  | (k', v') :: t => if k' = k then (k, v) :: t else (k', v') :: aset k v t

def adel {α : Type} (k : String) (l : List (String × α)) : List (String × α) :=
  l.filter (fun p => p.1 ≠ k)

theorem aget_aset_self {α : Type} (k : String) (v : α) (l : List (String × α)) :
    aget k (aset k v l) = some v := by
  induction l with
  | nil => simp [aget, aset]
  | cons p t ih =>
    by_cases h : p.1 = k
    · simp [aset, h, aget]
    · simp [aset, h, aget, ih]

theorem aget_aset_ne {α : Type} (k k' : String) (v : α) (l : List (String × α))
    (h : k ≠ k') : aget k' (aset k v l) = aget k' l := by
  induction l with
  | nil => simp [aget, aset, h]
  | cons p t ih =>
    obtain ⟨k0, v0⟩ := p
    by_cases hp : k0 = k
    · subst hp; simp [aset, aget, h]
    · by_cases hp' : k0 = k'
      · subst hp'; simp [aset, aget, hp]
      · simp [aset, aget, hp, hp', ih]

theorem aget_adel_self {α : Type} (k : String) (l : List (String × α)) :
    aget k (adel k l) = none := by
  induction l with
  | nil => simp [aget, adel]
  | cons p t ih =>
    obtain ⟨k0, v0⟩ := p
    by_cases h : k0 = k
    · subst h; simpa [adel, List.filter] using ih
    · simpa [adel, List.filter, h, aget] using ih

theorem aget_adel_ne {α : Type} (k k' : String) (l : List (String × α))
    (h : k ≠ k') : aget k' (adel k l) = aget k' l := by
  induction l with
  | nil => simp [aget, adel]
  | cons p t ih =>
    obtain ⟨k0, v0⟩ := p
    by_cases hp : k0 = k
    · simpa [adel, List.filter, aget, hp, h] using ih
    · by_cases hp' : k0 = k'
      · simp [adel, List.filter, aget, hp, hp', h.symm]
      · simpa [adel, List.filter, aget, hp, hp'] using ih

theorem aget_filter_key {α : Type} (p : String → Bool) (k : String)
    (l : List (String × α)) (hk : p k = true) :
    aget k (l.filter (fun x => p x.1)) = aget k l := by
  induction l with
  | nil => simp [aget]
  | cons q t ih =>
    by_cases hq : q.1 = k
    · simp [List.filter, hq, hk, aget]
    · cases hpq : p q.1 <;> simp [List.filter, hpq, aget, hq, ih]

/-! ## Redis set primitives (`SADD`, `SREM`, `SCARD`) -/

def sadd (x : String) (l : List String) : List String :=
  if x ∈ l then l else l ++ [x]

def srem (x : String) (l : List String) : List String :=
  l.filter (fun y => y ≠ x)

/-- Redis `SCARD`: cardinality of the stored set (the list is read as a set). -/
def scard (l : List String) : Nat := l.dedup.length

theorem mem_sadd (x y : String) (l : List String) :
    y ∈ sadd x l ↔ y = x ∨ y ∈ l := by
  unfold sadd
  by_cases h : x ∈ l
  · simp [h]
    intro e; exact e ▸ h
  · simp [h, or_comm]

theorem not_mem_srem (x : String) (l : List String) : x ∉ srem x l := by
  simp [srem]

theorem mem_srem (x y : String) (l : List String) :
    y ∈ srem x l ↔ y ∈ l ∧ y ≠ x := by
  simp [srem]

/-! ## String helpers -/

/-- Python `s[-n:]`. -/
def takeRight (n : Nat) (s : String) : String :=
  String.mk (s.data.drop (s.data.length - n))

/-- Substring test on char lists (used for the Redis `KEYS *{ghost_id}*`
glob pattern, which matches every key containing the id as a substring). -/
def isSubstrL (n : List Char) : List Char → Bool
  | [] => n.isEmpty
  | c :: t => n.isPrefixOf (c :: t) || isSubstrL n t

/-- Predicate `containsStr hay needle = true` iff `needle` occurs in `hay`. -/
def containsStr (hay needle : String) : Bool := isSubstrL needle.data hay.data

def isHexChar (c : Char) : Bool :=
  c.isDigit || ('a' ≤ c && c ≤ 'f') || ('A' ≤ c && c ≤ 'F')

/-- Python `str.startswith`, as a code-point prefix test (structurally
recursive so that the kernel can evaluate it). -/
def strStartsWith (s p : String) : Bool := p.data.isPrefixOf s.data

/-- Python `str.split("_")` on char lists. -/
def splitUnderscore : List Char → List (List Char)
  | [] => [[]]
  | x :: t =>
    match splitUnderscore t with
    | [] => [[]]
    | h :: rest => if x = '_' then [] :: h :: rest else (x :: h) :: rest

/-- Python `int(s)` restricted to non-empty digit strings (every id the
system generates has a plain decimal timestamp). -/
def parseNat (l : List Char) : Option Nat :=
  if l ≠ [] ∧ l.all Char.isDigit then
    some (l.foldl (fun acc c => acc * 10 + (c.toNat - 48)) 0)
  else none

/-- Python `str.strip()`: drop whitespace from both ends. -/
def strTrim (s : String) : String :=
  String.mk (((s.data.dropWhile Char.isWhitespace).reverse.dropWhile Char.isWhitespace).reverse)

/-- Source `GhostIdentityManager.is_valid_ghost_id`: structural validity of an
identity token `ghost_{timestampMs}_{16 hex chars}` whose timestamp is not
in the future.  `nowMs` is the current time in milliseconds. -/
def is_valid_ghost_id (gid : String) (nowMs : Nat) : Bool :=
  if gid = "" then false
  else if ¬ strStartsWith gid "ghost_" then false
  else match splitUnderscore gid.data with
    | [_, tsStr, hexStr] =>
      match parseNat tsStr with
      | none => false
      | some ts => hexStr.length = 16 && hexStr.all isHexChar && decide (ts ≤ nowMs)
    | _ => false

end GhostChat

namespace GhostChat

/-! ## SHA-256

Faithful SHA-256 over byte lists (`Nat`s below 256), with 32-bit words as
`Nat` reduced `% 2^32`.  `sha256Hex` gives the lowercase hex digest of a
string's bytes, matching Python `hashlib.sha256(s.encode()).hexdigest()`
for the ASCII strings the proof-of-work gate hashes (hex seeds and decimal
nonces; UTF-8 agrees with the code-point bytes on ASCII). -/

namespace SHA256

def M32 : Nat := 4294967296

def add32 (a b : Nat) : Nat := (a + b) % M32

def rotr (n x : Nat) : Nat := ((x >>> n) ||| ((x <<< (32 - n)) % M32)) % M32

def chF (e f g : Nat) : Nat := (e &&& f) ^^^ ((4294967295 ^^^ e) &&& g)

def majF (a b c : Nat) : Nat := (a &&& b) ^^^ (a &&& c) ^^^ (b &&& c)

def bigS0 (x : Nat) : Nat := (rotr 2 x) ^^^ (rotr 13 x) ^^^ (rotr 22 x)

def bigS1 (x : Nat) : Nat := (rotr 6 x) ^^^ (rotr 11 x) ^^^ (rotr 25 x)

def smallS0 (x : Nat) : Nat := (rotr 7 x) ^^^ (rotr 18 x) ^^^ (x >>> 3)

def smallS1 (x : Nat) : Nat := (rotr 17 x) ^^^ (rotr 19 x) ^^^ (x >>> 10)

def K : List Nat :=
  [1116352408, 1899447441, 3049323471, 3921009573,
   961987163, 1508970993, 2453635748, 2870763221,
   3624381080, 310598401, 607225278, 1426881987,
   1925078388, 2162078206, 2614888103, 3248222580,
   3835390401, 4022224774, 264347078, 604807628,
   770255983, 1249150122, 1555081692, 1996064986,
   2554220882, 2821834349, 2952996808, 3210313671,
   3336571891, 3584528711, 113926993, 338241895,
   666307205, 773529912, 1294757372, 1396182291,
   1695183700, 1986661051, 2177026350, 2456956037,
   2730485921, 2820302411, 3259730800, 3345764771,
   3516065817, 3600352804, 4094571909, 275423344,
   430227734, 506948616, 659060556, 883997877,
   958139571, 1322822218, 1537002063, 1747873779,
   1955562222, 2024104815, 2227730452, 2361852424,
   2428436474, 2756734187, 3204031479, 3329325298]

def H0 : List Nat :=
  [1779033703, 3144134277, 1013904242, 2773480762,
   1359893119, 2600822924, 528734635, 1541459225]

def padBytes (msg : List Nat) : List Nat :=
  let len := msg.length
  let bitLen := len * 8
  let z := (119 - (len % 64)) % 64
  msg ++ [0x80] ++ List.replicate z 0 ++
    [(bitLen >>> 56) % 256, (bitLen >>> 48) % 256, (bitLen >>> 40) % 256, (bitLen >>> 32) % 256,
     (bitLen >>> 24) % 256, (bitLen >>> 16) % 256, (bitLen >>> 8) % 256, bitLen % 256]

def toWords : List Nat → List Nat
  | a :: b :: c :: d :: rest => (((a * 256 + b) * 256 + c) * 256 + d) :: toWords rest
  | _ => []

def extendW : Nat → List Nat → List Nat
  | 0, w => w
  | k + 1, w =>
    let i := w.length
    let nw := add32 (add32 (smallS1 (w.getD (i - 2) 0)) (w.getD (i - 7) 0))
                    (add32 (smallS0 (w.getD (i - 15) 0)) (w.getD (i - 16) 0))
    extendW k (w ++ [nw])

structure St where
  a : Nat
  b : Nat
  c : Nat
  d : Nat
  e : Nat
  f : Nat
  g : Nat
  hh : Nat

def step (st : St) (kw : Nat) : St :=
  let t1 := add32 (add32 (add32 st.hh (bigS1 st.e)) (chF st.e st.f st.g)) kw
  let t2 := add32 (bigS0 st.a) (majF st.a st.b st.c)
  ⟨add32 t1 t2, st.a, st.b, st.c, add32 st.d t1, st.e, st.f, st.g⟩

def compress (blk16 : List Nat) (hs : List Nat) : List Nat :=
  let w := extendW 48 blk16
  let kw := (K.zip w).map (fun p => add32 p.1 p.2)
  let st0 : St := ⟨hs.getD 0 0, hs.getD 1 0, hs.getD 2 0, hs.getD 3 0,
                   hs.getD 4 0, hs.getD 5 0, hs.getD 6 0, hs.getD 7 0⟩
  let st := kw.foldl step st0
  [add32 (hs.getD 0 0) st.a, add32 (hs.getD 1 0) st.b, add32 (hs.getD 2 0) st.c,
   add32 (hs.getD 3 0) st.d, add32 (hs.getD 4 0) st.e, add32 (hs.getD 5 0) st.f,
   add32 (hs.getD 6 0) st.g, add32 (hs.getD 7 0) st.hh]

def processBlocks : Nat → List Nat → List Nat → List Nat
  | 0, _, hs => hs
  | n + 1, ws, hs => processBlocks n (ws.drop 16) (compress (ws.take 16) hs)

def sha256Words (msg : List Nat) : List Nat :=
  let ws := toWords (padBytes msg)
  processBlocks (ws.length / 16) ws H0

def hexChar (n : Nat) : Char := if n < 10 then Char.ofNat (48 + n) else Char.ofNat (87 + n)

def wordHexChars (w : Nat) : List Char :=
  [hexChar ((w >>> 28) % 16), hexChar ((w >>> 24) % 16), hexChar ((w >>> 20) % 16),
   hexChar ((w >>> 16) % 16), hexChar ((w >>> 12) % 16), hexChar ((w >>> 8) % 16),
   hexChar ((w >>> 4) % 16), hexChar (w % 16)]

def strBytes (s : String) : List Nat := s.data.map (fun c => c.toNat)

end SHA256

def sha256Hex (s : String) : String :=
  String.mk (((SHA256.sha256Words (SHA256.strBytes s)).map SHA256.wordHexChars).flatten)

/-! ## PowGate (`backend/proof_of_work.py`, class `ProofOfWorkManager`) -/

structure Challenge where
  challenge_id : String
  ghost_id : String
  random_data : String
  difficulty : Nat
  timestamp : Nat
  expires_at : Nat
  adaptive : Bool
  deriving DecidableEq

structure PowManager where
  difficulty : Nat
  ttl : Nat
  challenges : List (String × Challenge)
  deriving DecidableEq

/-- Source `ProofOfWorkManager.generate_challenge`: records a challenge with the
manager's current difficulty.  The fresh `challenge_id` and random seed
(`secrets.token_hex` in the source) and the current time are parameters. -/
def generate_challenge (m : PowManager) (ghost_id challenge_id random_data : String)
    (now : Nat) : Challenge × PowManager :=
  let c : Challenge :=
    { challenge_id := challenge_id, ghost_id := ghost_id, random_data := random_data,
      difficulty := m.difficulty, timestamp := now, expires_at := now + m.ttl,
      adaptive := false }
  (c, { m with challenges := aset challenge_id c m.challenges })

/-- Source `ProofOfWorkManager.create_adaptive_challenge`: difficulty scaled by
recent activity — `min (d+1) 6` above 10, `d` above 5, else `max (d-1) 2`. -/
def create_adaptive_challenge (m : PowManager) (ghost_id : String) (recent_activity : Nat)
    (challenge_id random_data : String) (now : Nat) : Challenge × PowManager :=
  let adaptive_difficulty :=
    if recent_activity > 10 then min (m.difficulty + 1) 6
    else if recent_activity > 5 then m.difficulty
    else max (m.difficulty - 1) 2
  let c : Challenge :=
    { challenge_id := challenge_id, ghost_id := ghost_id, random_data := random_data,
      difficulty := adaptive_difficulty, timestamp := now, expires_at := now + m.ttl,
      adaptive := true }
  (c, { m with challenges := aset challenge_id c m.challenges })

/-- Source `ProofOfWorkManager.verify_solution`.  A solution `{challenge_id, nonce}`
is accepted iff the challenge exists, belongs to the caller, has not
expired, and `sha256(random_data ++ nonce)` starts with
`"0" * self.difficulty` — the manager's CURRENT difficulty (the source
reads `self.difficulty`, not the difficulty recorded in the challenge).
On success (and on expiry) the challenge is deleted. -/
def verify_solution (m : PowManager) (ghost_id challenge_id nonce : String)
    (now : Nat) : Bool × PowManager :=
  if challenge_id = "" ∨ nonce = "" then (false, m)
  else match aget challenge_id m.challenges with
    | none => (false, m)
    | some c =>
      if c.ghost_id ≠ ghost_id then (false, m)
      else if now > c.expires_at then (false, { m with challenges := adel challenge_id m.challenges })
      else
        let hash_result := sha256Hex (c.random_data ++ nonce)
        let ok := strStartsWith hash_result (String.mk (List.replicate m.difficulty '0'))
        if ok then (true, { m with challenges := adel challenge_id m.challenges })
        else (false, m)

/-- The spec's acceptance predicate: the sha256 hex digest of
`seed ‖ nonce` has at least `d` leading zero hex digits. -/
def meets_difficulty (seed nonce : String) (d : Nat) : Bool :=
  strStartsWith (sha256Hex (seed ++ nonce)) (String.mk (List.replicate d '0'))

end GhostChat

namespace GhostChat

/-! ## Concrete proof-of-work scenarios

`powSeed` plays the role of `secrets.token_hex(32)`; the nonces were found
by brute force: `sha256(powSeed ++ "781")` starts with exactly three zero
hex digits, `sha256(powSeed ++ "139")` with exactly two. -/

def powSeed : String :=
  "abababababababababababababababababababababababababababababababab"

def powGhost : String := "ghost_1_0123456789abcdef"

/-- A manager constructed with the default difficulty 4 and TTL 300. -/
def powMgr4 : PowManager := { difficulty := 4, ttl := 300, challenges := [] }

/-- An adaptive challenge issued under low recent activity (0 ≤ 5), so its
recorded difficulty is `max (4-1) 2 = 3` while the manager stays at 4. -/
def advIssue : Challenge × PowManager :=
  create_adaptive_challenge powMgr4 powGhost 0 "cid_adaptive" powSeed 1000

/-- Claim C2: `verify_solution` accepts a nonce iff the digest of
seed ‖ nonce has at least `d` leading zero hex digits, `d` the difficulty
recorded in the challenge at issue time.  REFUTED by the code: the
adaptive challenge `advIssue` records difficulty 3, the nonce "781"
meets difficulty 3, the challenge has not expired at time 1100, yet
`verify_solution` returns `false`, because the source compares against
`"0" * self.difficulty` — the manager's current difficulty 4 — instead of
the recorded difficulty. -/
theorem pow_verify_uses_current_difficulty :
    advIssue.1.difficulty = 3 ∧
    meets_difficulty powSeed "781" 3 = true ∧
    1100 ≤ advIssue.1.expires_at ∧
    (verify_solution advIssue.2 powGhost "cid_adaptive" "781" 1100).1 = false := by
  decide

/-- A second adaptive challenge for the single-use claim. -/
def advIssue2 : Challenge × PowManager :=
  create_adaptive_challenge powMgr4 powGhost 0 "cid_single" powSeed 900

/-- Claim C6, counterexample: for the unexpired challenge `advIssue2`
(recorded difficulty 3) and the nonce "781" which satisfies ITS recorded
difficulty target, the first `verify_solution` call does NOT return true —
it returns false and leaves the challenge in place — so the claim as
stated (first call true and deletes) fails. -/
theorem pow_single_use_counterexample :
    meets_difficulty powSeed "781" advIssue2.1.difficulty = true ∧
    1000 ≤ advIssue2.1.expires_at ∧
    (verify_solution advIssue2.2 powGhost "cid_single" "781" 1000).1 = false ∧
    aget "cid_single" (verify_solution advIssue2.2 powGhost "cid_single" "781" 1000).2.challenges
      = some advIssue2.1 := by
  decide

/-- Claim C6 (amended): for every unexpired challenge owned by `g` and
every nonce whose digest meets the difficulty target that the verifier
enforces (the manager's CURRENT difficulty), the first
`verify_solution` call returns true and deletes the challenge, and a
second call with the same challenge id and nonce returns false because
the challenge is no longer found. -/
theorem pow_single_use (m : PowManager) (g cid nonce : String) (now : Nat) (c : Challenge)
    (hcid : cid ≠ "") (hn : nonce ≠ "")
    (hc : aget cid m.challenges = some c)
    (hg : c.ghost_id = g) (hexp : now ≤ c.expires_at)
    (hhash : meets_difficulty c.random_data nonce m.difficulty = true) :
    (verify_solution m g cid nonce now).1 = true ∧
    aget cid (verify_solution m g cid nonce now).2.challenges = none ∧
    (verify_solution (verify_solution m g cid nonce now).2 g cid nonce now).1 = false := by
  have hnexp : ¬ now > c.expires_at := Nat.not_lt.mpr hexp
  have h1 : verify_solution m g cid nonce now
      = (true, { m with challenges := adel cid m.challenges }) := by
    unfold verify_solution
    simp only [meets_difficulty] at hhash
    simp [hcid, hn, hc, hg, hnexp, hhash]
  refine ⟨by rw [h1], ?_, ?_⟩
  · rw [h1]
    exact aget_adel_self cid m.challenges
  · rw [h1]
    unfold verify_solution
    simp [hcid, hn, aget_adel_self]

/-- A manager with difficulty 2 and a non-adaptive challenge, for the
single-use witness. -/
def powMgr2 : PowManager := { difficulty := 2, ttl := 300, challenges := [] }

def genIssue : Challenge × PowManager :=
  generate_challenge powMgr2 powGhost "cid_gen" powSeed 500

/-- Witness for `pow_single_use` at a concrete challenge and nonce. -/
theorem pow_single_use_witness :
    ("cid_gen" : String) ≠ "" ∧ ("139" : String) ≠ "" ∧
    aget "cid_gen" genIssue.2.challenges = some genIssue.1 ∧
    genIssue.1.ghost_id = powGhost ∧
    (600 : Nat) ≤ genIssue.1.expires_at ∧
    meets_difficulty genIssue.1.random_data "139" genIssue.2.difficulty = true ∧
    ((verify_solution genIssue.2 powGhost "cid_gen" "139" 600).1 = true ∧
     aget "cid_gen" (verify_solution genIssue.2 powGhost "cid_gen" "139" 600).2.challenges = none ∧
     (verify_solution (verify_solution genIssue.2 powGhost "cid_gen" "139" 600).2
        powGhost "cid_gen" "139" 600).1 = false) :=
  ⟨by decide, by decide, by decide, by decide, by decide, by decide,
   pow_single_use genIssue.2 powGhost "cid_gen" "139" 600 genIssue.1
     (by decide) (by decide) (by decide) (by decide) (by decide) (by decide)⟩

end GhostChat

namespace GhostChat

/-! ## EphemeralStore (`backend/redis_manager.py`, class `RedisManager`)

TTL constants from `RedisManager.__init__` (seconds).  The sentinel
`PUBLIC_ROOM_TTL = -1` ("never expire") is modelled as a `none` TTL. -/

def SESSION_TTL : Nat := 900

def MESSAGE_TTL : Nat := 86400

def ROOM_TTL : Nat := 604800

def ACTIVE_USERS_TTL : Nat := 86400

def REACTION_TTL : Nat := 86400

/-- A stored value together with its key's TTL (`none` = no expiry,
i.e. the key was written with `redis.set`; `some t` = `setex`/`expire`). -/
structure Entry (α : Type) where
  val : α
  ttl : Option Nat
  deriving DecidableEq

/-- A `users:{ghost_id}` session record; of the presentation attributes the
model keeps only `custom_name`, the one the rest of the code reads back. -/
structure Session where
  ghost_id : String
  created_at : Nat
  last_activity : Nat
  active : Bool
  custom_name : Option String
  deriving DecidableEq

/-- A `rooms:{room_id}` record (the float presentation field `heat_level`
is not modelled; no claim mentions it). -/
structure RoomRec where
  id : String
  name : String
  created_by : String
  created_at : Nat
  participant_count : Nat
  is_public : Bool
  is_private : Bool
  participants : List String
  room_type : Option String
  deriving DecidableEq

/-- A `messages:{room_id}:{message_id}` record. -/
structure Message where
  id : String
  sender : String
  content : String
  room_id : String
  timestamp : Nat
  deriving DecidableEq

/-- The Redis keyspace, split into the key families the source uses.
`messages`, `reactions` and `reaction_names` are keyed by their fully
rendered Redis key (the glob-pattern deletion in `delete_ghost_data`
matches on rendered keys). -/
structure Store where
  sessions : List (String × Entry Session) := []
  rooms : List (String × Entry RoomRec) := []
  room_members : List (String × Entry (List String)) := []
  room_messages : List (String × Entry (List String)) := []
  messages : List (String × Entry Message) := []
  reactions : List (String × Entry (List String)) := []
  reaction_names : List (String × Entry (List (String × String))) := []
  active_users : List String := []
  active_users_ttl : Option Nat := none
  all_rooms : List String := []
  all_rooms_ttl : Option Nat := none
  private_rooms : List String := []
  deriving DecidableEq

def userKey (g : String) : String := "users:" ++ g

def roomKey (r : String) : String := "rooms:" ++ r

def membersKey (r : String) : String := "room_members:" ++ r

def roomMessagesKey (r : String) : String := "room_messages:" ++ r

def messageKey (r m : String) : String := "messages:" ++ r ++ ":" ++ m

/-- Redis `SMEMBERS room_members:{r}` (a missing key reads as the empty set). -/
def members_of (s : Store) (r : String) : List String :=
  ((aget r s.room_members).map Entry.val).getD []

/-! Python `sorted([ghost1_id, ghost2_id])`: lexicographic comparison on
code points, written structurally so the kernel can evaluate it. -/

def charListLe : List Char → List Char → Bool
  | [], _ => true
  | _ :: _, [] => false
  | a :: as, b :: bs => if a = b then charListLe as bs else decide (a < b)

def strLe (a b : String) : Bool := charListLe a.data b.data

def sorted_pair (a b : String) : String × String :=
  if strLe a b then (a, b) else (b, a)

theorem charListLe_total (a b : List Char) :
    charListLe a b = true ∨ charListLe b a = true := by
  induction a generalizing b with
  | nil => left; simp [charListLe]
  | cons x xs ih =>
    cases b with
    | nil => right; simp [charListLe]
    | cons y ys =>
      by_cases hxy : x = y
      · subst hxy
        rcases ih ys with h | h
        · left; simpa [charListLe] using h
        · right; simpa [charListLe] using h
      · rcases lt_trichotomy x y with h | h | h
        · left; simp [charListLe, hxy, h]
        · exact absurd h hxy
        · right
          have hyx : ¬ y = x := Ne.symm hxy
          simp [charListLe, hyx, h]

theorem charListLe_antisymm (a b : List Char) (hab : charListLe a b = true)
    (hba : charListLe b a = true) : a = b := by
  induction a generalizing b with
  | nil =>
    cases b with
    | nil => rfl
    | cons y ys => simp [charListLe] at hba
  | cons x xs ih =>
    cases b with
    | nil => simp [charListLe] at hab
    | cons y ys =>
      by_cases hxy : x = y
      · subst hxy
        simp only [charListLe, if_pos rfl] at hab hba
        rw [ih ys hab hba]
      · simp only [charListLe, if_neg hxy, decide_eq_true_eq] at hab
        simp only [charListLe, if_neg (Ne.symm hxy), decide_eq_true_eq] at hba
        exact absurd (lt_trans hab hba) (lt_irrefl x)

theorem sorted_pair_comm (a b : String) : sorted_pair a b = sorted_pair b a := by
  unfold sorted_pair strLe
  by_cases hab : charListLe a.data b.data = true
  · by_cases hba : charListLe b.data a.data = true
    · have hd : a.data = b.data := charListLe_antisymm _ _ hab hba
      have hab2 : a = b := by cases a; cases b; exact congrArg String.mk hd
      subst hab2; simp
    · simp [hab, hba]
  · have hba : charListLe b.data a.data = true :=
      (charListLe_total a.data b.data).resolve_left hab
    simp [hab, hba]

/-- The deterministic direct-room id `dm_{first}_{second}` of the sorted
pair. -/
def private_room_id (g1 g2 : String) : String :=
  "dm_" ++ (sorted_pair g1 g2).1 ++ "_" ++ (sorted_pair g1 g2).2

theorem private_room_id_comm (g1 g2 : String) :
    private_room_id g1 g2 = private_room_id g2 g1 := by
  unfold private_room_id
  rw [sorted_pair_comm]

end GhostChat

namespace GhostChat

namespace RedisManager

/-- Source `create_ghost_session`: write the session under `setex(SESSION_TTL)`,
add the ghost to `active_users`, refresh that set's TTL.  The
`preferences` dict is reduced to the optional custom display name, the
only preference the rest of the code reads back. -/
def create_ghost_session (ghost_id : String) (custom_name : Option String) (now : Nat)
    (s : Store) : Store :=
  { s with
    sessions :=
      (aset ghost_id
        ⟨{ ghost_id := ghost_id, created_at := now, last_activity := now,
           active := true, custom_name := custom_name },
         some SESSION_TTL⟩
        s.sessions),
    active_users := sadd ghost_id s.active_users,
    active_users_ttl := some ACTIVE_USERS_TTL }

def get_ghost_session (ghost_id : String) (s : Store) : Option Session :=
  (aget ghost_id s.sessions).map Entry.val

/-- Source `update_ghost_activity`: sliding session lease — rewrite the session
with a fresh `last_activity` under `setex(SESSION_TTL)`, if it exists. -/
def update_ghost_activity (ghost_id : String) (now : Nat) (s : Store) : Store :=
  match aget ghost_id s.sessions with
  | none => s
  | some e =>
    { s with sessions :=
        (aset ghost_id ⟨{ e.val with last_activity := now }, some SESSION_TTL⟩ s.sessions) }

/-- Source `send_message`: store the message under its own `setex(MESSAGE_TTL)`
key, `LPUSH` the key onto the room's message list, refresh the list's TTL
to `ROOM_TTL`, and touch the sender's session. -/
def send_message (ghost_id room_id content : String) (message_id : String) (now : Nat)
    (s : Store) : Message × Store :=
  let m : Message := { id := message_id, sender := ghost_id, content := content,
                       room_id := room_id, timestamp := now }
  let mkey := messageKey room_id message_id
  let s1 := { s with messages := aset mkey ⟨m, some MESSAGE_TTL⟩ s.messages }
  let old := ((aget room_id s1.room_messages).map Entry.val).getD []
  let s2 := { s1 with
    room_messages := aset room_id ⟨mkey :: old, some ROOM_TTL⟩ s1.room_messages }
  (m, update_ghost_activity ghost_id now s2)

/-- The `room_data` option dict of `create_room`, restricted to the fields
the model tracks; the source merges an arbitrary dict over the base
record, whose `is_public` is `True`. -/
structure RoomOpts where
  is_public : Option Bool := none
  is_private : Option Bool := none
  room_type : Option String := none
  deriving DecidableEq

/-- Source `create_room`: public rooms are stored with `redis.set` (no expiry),
non-public ones with `setex(ROOM_TTL)`; the id joins the `all_rooms` set,
whose own TTL is refreshed.  The fresh `room_id` and current time are
parameters. -/
def create_room (creator_ghost_id : String) (room_name : Option String)
    (opts : RoomOpts) (room_id : String) (now : Nat) (s : Store) : RoomRec × Store :=
  let rec0 : RoomRec :=
    { id := room_id,
      name := room_name.getD ("Room " ++ takeRight 6 room_id),
      created_by := creator_ghost_id,
      created_at := now,
      participant_count := 0,
      is_public := opts.is_public.getD true,
      is_private := opts.is_private.getD false,
      participants := [],
      room_type := opts.room_type }
  let entry : Entry RoomRec := if rec0.is_public then ⟨rec0, none⟩ else ⟨rec0, some ROOM_TTL⟩
  (rec0,
   { s with rooms := aset room_id entry s.rooms,
            all_rooms := sadd room_id s.all_rooms,
            all_rooms_ttl := some ROOM_TTL })

/-- Source `create_private_room`: return the existing record when the
deterministic `dm_` key is present (no other effect); otherwise build the
record (stored with `redis.set`, no TTL), register it in `private_rooms`,
and auto-join both users, refreshing the membership set's TTL.
A session that exists but has no custom name yields Python `None` for the
display name, which the f-string renders as `"None"`. -/
def create_private_room (ghost1_id ghost2_id : String) (now : Nat) (s : Store) :
    RoomRec × Store :=
  let room_id := private_room_id ghost1_id ghost2_id
  match aget room_id s.rooms with
  | some e => (e.val, s)
  | none =>
    let d1 := match get_ghost_session ghost1_id s with
      | some sess => sess.custom_name
      | none => some ("Ghost#" ++ takeRight 4 ghost1_id)
    let d2 := match get_ghost_session ghost2_id s with
      | some sess => sess.custom_name
      | none => some ("Ghost#" ++ takeRight 4 ghost2_id)
    let rec0 : RoomRec :=
      { id := room_id,
        name := "Private: " ++ d1.getD "None" ++ " & " ++ d2.getD "None",
        created_by := ghost1_id,
        created_at := now,
        participant_count := 0,
        is_public := false,
        is_private := true,
        participants := [(sorted_pair ghost1_id ghost2_id).1, (sorted_pair ghost1_id ghost2_id).2],
        room_type := some "private_message" }
    let mem := sadd ghost2_id (sadd ghost1_id (members_of s room_id))
    (rec0,
     { s with
       rooms := aset room_id ⟨rec0, none⟩ s.rooms,
       private_rooms := sadd room_id s.private_rooms,
       room_members := aset room_id ⟨mem, some ROOM_TTL⟩ s.room_members })

/-- Source `delete_room`: delete the room record, membership set, message list,
the `all_rooms` reference, and every `messages:{room_id}:*` key. -/
def delete_room (room_id : String) (s : Store) : Store :=
  { s with
    rooms := adel room_id s.rooms,
    room_members := adel room_id s.room_members,
    room_messages := adel room_id s.room_messages,
    all_rooms := srem room_id s.all_rooms,
    messages := s.messages.filter (fun p => !(strStartsWith p.1 (messageKey room_id ""))) }

/-- Source `join_room`: `SADD` the ghost into the membership set, refresh the
set's TTL, recompute `SCARD`, and — when the room record exists — write
the record back with the updated count using `setex(ROOM_TTL)`
unconditionally, public rooms included. -/
def join_room (ghost_id room_id : String) (s : Store) : Store :=
  let mem := sadd ghost_id (members_of s room_id)
  let s1 := { s with room_members := aset room_id ⟨mem, some ROOM_TTL⟩ s.room_members }
  let participant_count := scard (members_of s1 room_id)
  match aget room_id s1.rooms with
  | none => s1
  | some e =>
    { s1 with rooms :=
        (aset room_id
          ⟨{ e.val with participant_count := participant_count }, some ROOM_TTL⟩
          s1.rooms) }

/-- Redis `SREM` on a membership key, with Redis's behavior of removing a set
key that becomes empty (a missing key is left missing). -/
def srem_key (room_id ghost_id : String) (l : List (String × Entry (List String))) :
    List (String × Entry (List String)) :=
  match aget room_id l with
  | none => l
  | some e =>
    let v := srem ghost_id e.val
    if v = [] then adel room_id l else aset room_id ⟨v, e.ttl⟩ l

/-- Source `leave_room`: remove the ghost from the membership set and recompute
the count; when the room record exists, delete the whole room if it is now
empty and not public, otherwise write the updated count back (public rooms
with `redis.set`, clearing any TTL; others with `setex(ROOM_TTL)`). -/
def leave_room (ghost_id room_id : String) (s : Store) : Store :=
  let s1 := { s with room_members := srem_key room_id ghost_id s.room_members }
  let participant_count := scard (members_of s1 room_id)
  match aget room_id s1.rooms with
  | none => s1
  | some e =>
    let rec1 := { e.val with participant_count := participant_count }
    if participant_count = 0 ∧ ¬ e.val.is_public then delete_room room_id s1
    else if e.val.is_public then
      { s1 with rooms := aset room_id ⟨rec1, none⟩ s1.rooms }
    else
      { s1 with rooms := aset room_id ⟨rec1, some ROOM_TTL⟩ s1.rooms }

def get_room_members (room_id : String) (s : Store) : List String :=
  members_of s room_id

/-- Source `get_user_rooms`: every room in the public `all_rooms` set or the
`private_rooms` set whose membership set contains the ghost (Python builds
a `set`, so the result is duplicate-free). -/
def get_user_rooms (ghost_id : String) (s : Store) : List String :=
  ((s.all_rooms.filter (fun r => ghost_id ∈ members_of s r)) ++
   (s.private_rooms.filter (fun r => ghost_id ∈ members_of s r))).dedup

/-- Source `delete_ghost_data`, the pipeline in source order: (1) `SREM` the ghost
from every `reactions:*` set, (2) `HDEL` its entries from every
`reaction_names:*` hash, (3) delete every key matching the glob
`*{ghost_id}*` (substring match on the rendered key, all key families),
(4) `SREM` from `active_users`, (5) `SREM` from `room_members:{r}` for
every room id in the `all_rooms` snapshot.  Emptied sets and hashes are
dropped, as Redis drops them. -/
def delete_ghost_data (ghost_id : String) (s : Store) : Store :=
  let reactions1 := s.reactions.filterMap (fun p =>
    let v := srem ghost_id p.2.val
    if v = [] then none else some (p.1, Entry.mk v p.2.ttl))
  let rnames1 := s.reaction_names.filterMap (fun p =>
    let v := p.2.val.filter (fun q => q.1 ≠ ghost_id)
    if v = [] then none else some (p.1, Entry.mk v p.2.ttl))
  let s1 : Store :=
    { sessions := s.sessions.filter (fun p => !(containsStr (userKey p.1) ghost_id)),
      rooms := s.rooms.filter (fun p => !(containsStr (roomKey p.1) ghost_id)),
      room_members := s.room_members.filter (fun p => !(containsStr (membersKey p.1) ghost_id)),
      room_messages :=
        s.room_messages.filter (fun p => !(containsStr (roomMessagesKey p.1) ghost_id)),
      messages := s.messages.filter (fun p => !(containsStr p.1 ghost_id)),
      reactions := reactions1.filter (fun p => !(containsStr p.1 ghost_id)),
      reaction_names := rnames1.filter (fun p => !(containsStr p.1 ghost_id)),
      active_users := if containsStr "active_users" ghost_id then [] else s.active_users,
      active_users_ttl := s.active_users_ttl,
      all_rooms := if containsStr "all_rooms" ghost_id then [] else s.all_rooms,
      all_rooms_ttl := s.all_rooms_ttl,
      private_rooms := if containsStr "private_rooms" ghost_id then [] else s.private_rooms }
  let s2 := { s1 with active_users := srem ghost_id s1.active_users }
  { s2 with
    room_members := s.all_rooms.foldl (fun acc r => srem_key r ghost_id acc) s2.room_members }

end RedisManager

end GhostChat

namespace GhostChat

/-! ## Claims about the store operations -/

/-- A public room freshly created by `create_room` with default options. -/
def c1Creation : RoomRec × Store :=
  RedisManager.create_room "ghost_1_00000000000000aa" (some "Lounge")
    {} "room_100_c0ffee" 100 {}

/-- Claim C1: public-room metadata is never stored with a finite TTL —
after `create_room` of a public room and after every `join_room` /
`leave_room` on it, the `rooms:{room_id}` key has no expiry.  REFUTED by
`join_room`, which writes the record back with `setex(self.ROOM_TTL)`
unconditionally: the public room below is created with no expiry
(`ttl = none`), yet after one join its metadata key carries the finite
TTL 604800 — contradicting the code's own intent, stated in
`create_room` and `leave_room` ("Public rooms persist indefinitely"),
which both use plain `set` for public rooms. -/
theorem public_room_ttl_after_join :
    c1Creation.1.is_public = true ∧
    (aget "room_100_c0ffee" c1Creation.2.rooms).map Entry.ttl = some none ∧
    (aget "room_100_c0ffee"
        (RedisManager.join_room "ghost_1_00000000000000bb" "room_100_c0ffee"
          c1Creation.2).rooms).map Entry.ttl
      = some (some ROOM_TTL) ∧
    (aget "room_100_c0ffee"
        (RedisManager.leave_room "ghost_1_00000000000000bb" "room_100_c0ffee"
          (RedisManager.join_room "ghost_1_00000000000000bb" "room_100_c0ffee"
            c1Creation.2)).rooms).map Entry.ttl
      = some none := by
  decide

end GhostChat

namespace GhostChat

/-- Claim C4: for every room whose record exists in the store immediately
after a `join_room` or `leave_room` on it, the stored `participant_count`
equals the cardinality of that room's membership set. -/
theorem participant_count_tracks_membership (s : Store) (g r : String) :
    (∀ e, aget r (RedisManager.join_room g r s).rooms = some e →
        e.val.participant_count = scard (members_of (RedisManager.join_room g r s) r)) ∧
    (∀ e, aget r (RedisManager.leave_room g r s).rooms = some e →
        e.val.participant_count = scard (members_of (RedisManager.leave_room g r s) r)) := by
  constructor
  · intro e he
    simp only [RedisManager.join_room] at he ⊢
    cases h : aget r s.rooms with
    | none => simp [h] at he
    | some e0 =>
      simp only [h] at he ⊢
      rw [aget_aset_self] at he
      simp only [Option.some.injEq] at he
      subst he
      simp [members_of]
  · intro e he
    simp only [RedisManager.leave_room] at he ⊢
    by_cases hdel : scard (members_of { s with room_members := RedisManager.srem_key r g s.room_members } r) = 0 ∧ ¬ (aget r s.rooms).elim True (fun e0 => e0.val.is_public)
    all_goals cases h : aget r s.rooms with
    | none => simp [h] at he
    | some e0 =>
      simp only [h] at he ⊢
      by_cases hp : scard (members_of { s with room_members := RedisManager.srem_key r g s.room_members } r) = 0 ∧ ¬ e0.val.is_public
      · rw [if_pos hp] at he
        simp [RedisManager.delete_room, aget_adel_self] at he
      · rw [if_neg hp] at he ⊢
        by_cases hpub : e0.val.is_public
        · rw [if_pos hpub] at he ⊢
          rw [aget_aset_self] at he
          simp only [Option.some.injEq] at he
          subst he
          simp [members_of]
        · rw [if_neg hpub] at he ⊢
          rw [aget_aset_self] at he
          simp only [Option.some.injEq] at he
          subst he
          simp [members_of]

/-- Room record for the `participant_count_tracks_membership` witness,
with the participant count it holds before and after the join. -/
def c4Room (pc : Nat) : RoomRec :=
  { id := "r1", name := "Lounge", created_by := "ga", created_at := 0,
    participant_count := pc, is_public := true, is_private := false,
    participants := [], room_type := none }

/-- A public room with one member, about to be joined by a second ghost. -/
def c4Store : Store :=
  { rooms := [("r1", ⟨c4Room 5, none⟩)],
    room_members := [("r1", ⟨["ga"], some 604800⟩)],
    all_rooms := ["r1"] }

theorem participant_count_tracks_membership_witness :
    aget "r1" (RedisManager.join_room "gb" "r1" c4Store).rooms
      = some ⟨c4Room 2, some 604800⟩ ∧
    (c4Room 2).participant_count
      = scard (members_of (RedisManager.join_room "gb" "r1" c4Store) "r1") :=
  ⟨by decide,
   (participant_count_tracks_membership c4Store "gb" "r1").1
     ⟨c4Room 2, some 604800⟩ (by decide)⟩

end GhostChat

namespace GhostChat

/-- Claim C5: `create_private_room` is order-independent and idempotent —
both argument orders address the same `dm_` room id, after any first call
the record is present under that id, and repeated calls (either order, at
any later time) return the stored record unchanged and leave the store
untouched. -/
theorem direct_room_idempotent (g1 g2 : String) (s : Store) (n1 n2 n3 : Nat) :
    private_room_id g1 g2 = private_room_id g2 g1 ∧
    ((aget (private_room_id g1 g2)
        (RedisManager.create_private_room g1 g2 n1 s).2.rooms).map Entry.val
      = some (RedisManager.create_private_room g1 g2 n1 s).1) ∧
    RedisManager.create_private_room g1 g2 n2 (RedisManager.create_private_room g1 g2 n1 s).2
      = ((RedisManager.create_private_room g1 g2 n1 s).1,
         (RedisManager.create_private_room g1 g2 n1 s).2) ∧
    RedisManager.create_private_room g2 g1 n3 (RedisManager.create_private_room g1 g2 n1 s).2
      = ((RedisManager.create_private_room g1 g2 n1 s).1,
         (RedisManager.create_private_room g1 g2 n1 s).2) := by
  refine ⟨private_room_id_comm g1 g2, ?_, ?_, ?_⟩
  all_goals
    simp only [RedisManager.create_private_room, private_room_id_comm g2 g1]
  all_goals cases h : aget (private_room_id g1 g2) s.rooms with
  | some e => simp [h]
  | none => simp [h, aget_aset_self]

end GhostChat

namespace GhostChat

/-- Claim C10: creating a fresh direct room auto-joins both parties — the
membership set afterwards is exactly `{g1, g2}` — while the stored room
record keeps `participant_count = 0`, so the stored count and the
membership cardinality disagree until a later join/leave recomputes it. -/
theorem direct_room_autojoin_count_zero (g1 g2 : String) (s : Store) (now : Nat)
    (hroom : aget (private_room_id g1 g2) s.rooms = none)
    (hmem : members_of s (private_room_id g1 g2) = []) :
    (∀ x, x ∈ members_of (RedisManager.create_private_room g1 g2 now s).2
        (private_room_id g1 g2) ↔ (x = g1 ∨ x = g2)) ∧
    (RedisManager.create_private_room g1 g2 now s).1.participant_count = 0 ∧
    (aget (private_room_id g1 g2)
        (RedisManager.create_private_room g1 g2 now s).2.rooms).map
      (fun e => e.val.participant_count) = some 0 ∧
    scard (members_of (RedisManager.create_private_room g1 g2 now s).2
        (private_room_id g1 g2)) ≠ 0 := by
  have hm : members_of (RedisManager.create_private_room g1 g2 now s).2
      (private_room_id g1 g2) = sadd g2 (sadd g1 (members_of s (private_room_id g1 g2))) := by
    simp [RedisManager.create_private_room, hroom, members_of, aget_aset_self]
  refine ⟨?_, ?_, ?_, ?_⟩
  · intro x
    rw [hm, hmem]
    simp [mem_sadd, or_comm]
  · simp [RedisManager.create_private_room, hroom]
  · simp [RedisManager.create_private_room, hroom, aget_aset_self]
  · rw [hm, hmem]
    intro hz
    have hg1 : g1 ∈ sadd g2 (sadd g1 ([] : List String)) := by
      rw [mem_sadd, mem_sadd]
      right; left; rfl
    have hne : sadd g2 (sadd g1 ([] : List String)) ≠ [] := by
      intro hnil
      rw [hnil] at hg1
      simp at hg1
    have := (List.dedup_eq_nil _).mp (List.length_eq_zero.mp hz)
    exact hne this

/-- Witness store and ids for `direct_room_autojoin_count_zero`. -/
def c10g1 : String := "ghost_1_00000000000000aa"

def c10g2 : String := "ghost_1_00000000000000bb"

/-- Witness for `direct_room_autojoin_count_zero` on the empty store. -/
theorem direct_room_autojoin_count_zero_witness :
    aget (private_room_id c10g1 c10g2) ({} : Store).rooms = none ∧
    members_of ({} : Store) (private_room_id c10g1 c10g2) = [] ∧
    ((∀ x, x ∈ members_of (RedisManager.create_private_room c10g1 c10g2 7 {}).2
        (private_room_id c10g1 c10g2) ↔ (x = c10g1 ∨ x = c10g2)) ∧
     (RedisManager.create_private_room c10g1 c10g2 7 {}).1.participant_count = 0 ∧
     (aget (private_room_id c10g1 c10g2)
         (RedisManager.create_private_room c10g1 c10g2 7 {}).2.rooms).map
       (fun e => e.val.participant_count) = some 0 ∧
     scard (members_of (RedisManager.create_private_room c10g1 c10g2 7 {}).2
         (private_room_id c10g1 c10g2)) ≠ 0) :=
  ⟨by decide, by decide,
   direct_room_autojoin_count_zero c10g1 c10g2 {} 7 (by decide) (by decide)⟩

end GhostChat

namespace GhostChat

/-! ## Claim C7: destruction (`delete_ghost_data` via
`DestructionEngine.destroy_ghost_completely`, which delegates to it). -/

/-- Membership read on a raw `room_members` map. -/
def membersAt (m : List (String × Entry (List String))) (r : String) : List String :=
  ((aget r m).map Entry.val).getD []

theorem membersAt_srem_key_self (r g : String)
    (m : List (String × Entry (List String))) :
    g ∉ membersAt (RedisManager.srem_key r g m) r := by
  unfold RedisManager.srem_key
  cases h : aget r m with
  | none => simp [membersAt, h]
  | some e =>
    by_cases hv : srem g e.val = []
    · simp [hv, membersAt, aget_adel_self]
    · simp [hv, membersAt, aget_aset_self, mem_srem]

theorem membersAt_srem_key_other (r' r g : String)
    (m : List (String × Entry (List String))) (h : r' ≠ r) :
    membersAt (RedisManager.srem_key r' g m) r = membersAt m r := by
  unfold RedisManager.srem_key
  cases hm : aget r' m with
  | none => rfl
  | some e =>
    by_cases hv : srem g e.val = []
    · simp [hv, membersAt, aget_adel_ne r' r m h]
    · simp [hv, membersAt, aget_aset_ne r' r _ m h]

theorem foldl_srem_key_preserves (g : String) (l : List String)
    (m : List (String × Entry (List String))) (r : String)
    (h : g ∉ membersAt m r) :
    g ∉ membersAt (l.foldl (fun acc x => RedisManager.srem_key x g acc) m) r := by
  induction l generalizing m with
  | nil => exact h
  | cons x xs ih =>
    apply ih
    by_cases hx : x = r
    · subst hx
      exact membersAt_srem_key_self x g m
    · rw [membersAt_srem_key_other x r g m hx]
      exact h

theorem foldl_srem_key_not_mem (g : String) (l : List String)
    (m : List (String × Entry (List String))) (r : String) (hr : r ∈ l) :
    g ∉ membersAt (l.foldl (fun acc x => RedisManager.srem_key x g acc) m) r := by
  induction l generalizing m with
  | nil => cases hr
  | cons x xs ih =>
    rcases List.mem_cons.mp hr with h | h
    · subst h
      exact foldl_srem_key_preserves g xs _ r (membersAt_srem_key_self r g m)
    · exact ih _ h

/-- Claim C7 (amended): after `delete_ghost_data g`, the ghost is absent
from the active-identity set and from the membership set of every room
listed in the global `all_rooms` set, and every message whose key does not
embed `g` is still stored unchanged, its own TTL intact.  (The unamended
claim — absence from EVERY room's membership set — fails: a direct room
between two other identities is in `private_rooms`, not `all_rooms`, and
its membership key does not embed `g`; see the counterexample.) -/
theorem destroy_ghost_frame (g : String) (s : Store) (k : String) (e : Entry Message)
    (hk : containsStr k g = false)
    (hmsg : aget k s.messages = some e) :
    g ∉ (RedisManager.delete_ghost_data g s).active_users ∧
    (∀ r, r ∈ (RedisManager.delete_ghost_data g s).all_rooms →
        g ∉ members_of (RedisManager.delete_ghost_data g s) r) ∧
    aget k (RedisManager.delete_ghost_data g s).messages = some e := by
  refine ⟨?_, ?_, ?_⟩
  · simp [RedisManager.delete_ghost_data, srem]
  · intro r hr
    simp only [RedisManager.delete_ghost_data] at hr ⊢
    by_cases hc : containsStr "all_rooms" g = true
    · rw [if_pos hc] at hr
      cases hr
    · rw [if_neg hc] at hr
      exact foldl_srem_key_not_mem g s.all_rooms _ r hr
  · simp only [RedisManager.delete_ghost_data]
    rw [aget_filter_key (fun x => !(containsStr x g)) k s.messages (by simp [hk])]
    exact hmsg

def c7Ghost : String := "ghost_1_0123456789abcdef"

def c7Other1 : String := "ghost_2_aaaaaaaaaaaaaaaa"

def c7Other2 : String := "ghost_3_bbbbbbbbbbbbbbbb"

/-- A direct room between the two OTHER identities, which `c7Ghost` has
entered via `join_room` (the join handler adds a ghost to any room id's
membership set). -/
def c7Room : String := private_room_id c7Other1 c7Other2

def c7RoomRec : RoomRec :=
  { id := c7Room, name := "Private", created_by := c7Other1, created_at := 0,
    participant_count := 3, is_public := false, is_private := true,
    participants := [c7Other1, c7Other2], room_type := some "private_message" }

def c7Store : Store :=
  { rooms := [(c7Room, ⟨c7RoomRec, none⟩)],
    room_members := [(c7Room, ⟨[c7Other1, c7Other2, c7Ghost], some 604800⟩)],
    active_users := [c7Ghost, c7Other1, c7Other2],
    private_rooms := [c7Room] }

/-- Claim C7, counterexample to the unamended claim: the room record for
`c7Room` still exists after `delete_ghost_data c7Ghost`, yet `c7Ghost` is
still in that room's membership set — the deletion loop only sweeps the
rooms listed in `all_rooms`, and the glob `*{ghost_id}*` does not match
`room_members:dm_ghost_2_…_ghost_3_…`. -/
theorem destroy_ghost_counterexample :
    (aget c7Room (RedisManager.delete_ghost_data c7Ghost c7Store).rooms).isSome = true ∧
    c7Ghost ∈ members_of (RedisManager.delete_ghost_data c7Ghost c7Store) c7Room := by
  decide

/-- Witness data for `destroy_ghost_frame`: one public room whose single
member is the ghost, and one message authored by the ghost whose key does
not embed the ghost id. -/
def c7WitnessStore : Store :=
  { messages := [(messageKey "room_5_cafe" "msg_1",
      ⟨{ id := "msg_1", sender := c7Ghost, content := "hi", room_id := "room_5_cafe",
         timestamp := 1 }, some 86400⟩)],
    room_members := [("room_5_cafe", ⟨[c7Ghost], some 604800⟩)],
    active_users := [c7Ghost],
    all_rooms := ["room_5_cafe"] }

theorem destroy_ghost_frame_witness :
    containsStr (messageKey "room_5_cafe" "msg_1") c7Ghost = false ∧
    aget (messageKey "room_5_cafe" "msg_1") c7WitnessStore.messages
      = some ⟨{ id := "msg_1", sender := c7Ghost, content := "hi", room_id := "room_5_cafe",
                timestamp := 1 }, some 86400⟩ ∧
    (c7Ghost ∉ (RedisManager.delete_ghost_data c7Ghost c7WitnessStore).active_users ∧
     (∀ r, r ∈ (RedisManager.delete_ghost_data c7Ghost c7WitnessStore).all_rooms →
         c7Ghost ∉ members_of (RedisManager.delete_ghost_data c7Ghost c7WitnessStore) r) ∧
     aget (messageKey "room_5_cafe" "msg_1")
         (RedisManager.delete_ghost_data c7Ghost c7WitnessStore).messages
       = some ⟨{ id := "msg_1", sender := c7Ghost, content := "hi", room_id := "room_5_cafe",
                 timestamp := 1 }, some 86400⟩) :=
  ⟨by decide, by decide,
   destroy_ghost_frame c7Ghost c7WitnessStore (messageKey "room_5_cafe" "msg_1")
     ⟨{ id := "msg_1", sender := c7Ghost, content := "hi", room_id := "room_5_cafe",
        timestamp := 1 }, some 86400⟩ (by decide) (by decide)⟩

end GhostChat

namespace GhostChat

/-! ## ConnectionRegistry (`backend/websocket_manager.py`,
class `WebSocketManager`)

Transport effects (socket accepts/closes, sends, broadcasts, heartbeat
task management) are recorded as a list of `Action`s; the in-process state
is the connection map, the per-ghost room cache, and the heartbeat-task
set.  Event payloads carry the fields the claims mention; presentation
fields (display names, avatars, timestamps) are omitted. -/

inductive Payload where
  | connection_established (ghost_id : String)
  | room_joined (room_id : String) (members : List String)
  | room_left (room_id : String)
  | ghost_joined (ghost_id : String)
  | ghost_left (ghost_id : String)
  | new_message (m : Message)
  | room_created (room : RoomRec)
  | room_list (rooms : List RoomRec)
  | pong
  | typing_indicator (ghost_id : String) (is_typing : Bool)
  | error (msg : String)
  deriving DecidableEq

inductive Action where
  | close_socket (ghost_id reason : String)
  | accept_socket (ghost_id : String)
  | send (ghost_id : String) (payload : Payload)
  | broadcast (room_id : String) (exclude : Option String) (payload : Payload)
  | cancel_heartbeat (ghost_id : String)
  | start_heartbeat (ghost_id : String)
  deriving DecidableEq

structure Registry where
  active_connections : List String := []
  ghost_rooms : List (String × List String) := []
  heartbeat_tasks : List String := []
  deriving DecidableEq

/-- The cached room set of a ghost (`self.ghost_rooms.get(ghost_id, set())`). -/
def cache_of (reg : Registry) (g : String) : List String :=
  (aget g reg.ghost_rooms).getD []

namespace WebSocketManager

/-- Source `WebSocketManager.connect`.  Structurally invalid ids are rejected
(socket closed, no state change).  A ghost already present in
`active_connections` is superseded: old socket closed, old heartbeat
cancelled, and — because the registry entry is still present when
`was_previously_connected` is computed — the room cache is restored from
the store via `get_user_rooms`.  A ghost not present starts with an empty
cache.  The session is created if absent, else touched.  `now` is the
current time (used both for the validity check and the session
timestamps). -/
def connect (ghost_id : String) (now : Nat) (reg : Registry) (s : Store) :
    Registry × Store × List Action :=
  if ¬ is_valid_ghost_id ghost_id now then
    (reg, s, [Action.close_socket ghost_id "Invalid ghost ID"])
  else
    let was_previously_connected := ghost_id ∈ reg.active_connections
    let acts0 := if ghost_id ∈ reg.active_connections then
        [Action.close_socket ghost_id "New connection established",
         Action.cancel_heartbeat ghost_id]
      else []
    let cache := if was_previously_connected then RedisManager.get_user_rooms ghost_id s
      else []
    let reg1 : Registry :=
      { active_connections := sadd ghost_id reg.active_connections,
        ghost_rooms := aset ghost_id cache reg.ghost_rooms,
        heartbeat_tasks := sadd ghost_id reg.heartbeat_tasks }
    let s1 := match RedisManager.get_ghost_session ghost_id s with
      | none => RedisManager.create_ghost_session ghost_id none now s
      | some _ => RedisManager.update_ghost_activity ghost_id now s
    (reg1, s1,
     acts0 ++ [Action.accept_socket ghost_id, Action.start_heartbeat ghost_id,
       Action.send ghost_id (Payload.connection_established ghost_id)])

/-- Source `WebSocketManager._leave_room`: store-level leave, cache discard,
`room_left` to the ghost, `ghost_left` broadcast to the room. -/
def leave_room_internal (ghost_id room_id : String) (reg : Registry) (s : Store) :
    Registry × Store × List Action :=
  let s1 := RedisManager.leave_room ghost_id room_id s
  let reg1 := match aget ghost_id reg.ghost_rooms with
    | none => reg
    | some cache =>
      { reg with ghost_rooms := aset ghost_id (srem room_id cache) reg.ghost_rooms }
  (reg1, s1,
   [Action.send ghost_id (Payload.room_left room_id),
    Action.broadcast room_id (some ghost_id) (Payload.ghost_left ghost_id)])

/-- The `for room_id in list(self.ghost_rooms.get(ghost_id, []))` loop of
`disconnect`, iterating over a snapshot of the cache. -/
def disconnect_loop (ghost_id : String) :
    List String → Registry × Store × List Action → Registry × Store × List Action
  | [], acc => acc
  | r :: rest, (reg, s, acts) =>
    let res := leave_room_internal ghost_id r reg s
    disconnect_loop ghost_id rest (res.1, res.2.1, acts ++ res.2.2)

/-- Source `WebSocketManager.disconnect`: for a connected ghost, leave every
cached room (updating the store), cancel the heartbeat, close the socket,
and REMOVE the ghost from `active_connections` and `ghost_rooms`;
a no-op for an unknown ghost. -/
def disconnect (ghost_id : String) (reg : Registry) (s : Store) :
    Registry × Store × List Action :=
  if ghost_id ∈ reg.active_connections then
    let res := disconnect_loop ghost_id (cache_of reg ghost_id) (reg, s, [])
    ({ active_connections := srem ghost_id res.1.active_connections,
       ghost_rooms := adel ghost_id res.1.ghost_rooms,
       heartbeat_tasks := srem ghost_id res.1.heartbeat_tasks },
     res.2.1,
     res.2.2 ++ [Action.cancel_heartbeat ghost_id,
       Action.close_socket ghost_id "Server disconnect"])
  else (reg, s, [])

/-- The "leave all other rooms first to ensure clean room switching" loop
of `_handle_join_room`, iterating over a snapshot (`copy()`) of the cache:
every cached room other than the target is left in the store and
discarded from the cache. -/
def clean_switch (ghost_id room_id : String) :
    List String → Registry × Store → Registry × Store
  | [], rs => rs
  | r :: rest, (reg, s) =>
    if r = room_id then clean_switch ghost_id room_id rest (reg, s)
    else
      let s1 := RedisManager.leave_room ghost_id r s
      let reg1 := { reg with
        ghost_rooms := aset ghost_id (srem r (cache_of reg ghost_id)) reg.ghost_rooms }
      clean_switch ghost_id room_id rest (reg1, s1)

/-- Source `WebSocketManager._handle_join_room`: reject a missing/empty room id;
otherwise ensure a cache entry exists, leave every other cached room,
join the target room in the store, add it to the cache, send
`room_joined` and broadcast `ghost_joined` (excluding the joiner). -/
def handle_join_room (ghost_id : String) (room_id : Option String)
    (reg : Registry) (s : Store) : Registry × Store × List Action :=
  match room_id with
  | none => (reg, s, [Action.send ghost_id (Payload.error "Room ID is required")])
  | some rid =>
    if rid = "" then (reg, s, [Action.send ghost_id (Payload.error "Room ID is required")])
    else
      let reg0 := if (aget ghost_id reg.ghost_rooms).isSome then reg
        else { reg with ghost_rooms := aset ghost_id [] reg.ghost_rooms }
      let rs := clean_switch ghost_id rid (cache_of reg0 ghost_id) (reg0, s)
      let s2 := RedisManager.join_room ghost_id rid rs.2
      let reg2 := { rs.1 with
        ghost_rooms := aset ghost_id (sadd rid (cache_of rs.1 ghost_id)) rs.1.ghost_rooms }
      (reg2, s2,
       [Action.send ghost_id
          (Payload.room_joined rid (RedisManager.get_room_members rid s2)),
        Action.broadcast rid (some ghost_id) (Payload.ghost_joined ghost_id)])

/-- Source `WebSocketManager._handle_send_message`: a missing/falsy room id or
content is rejected; a sender not cached in the room is rejected; content
whose strip() is empty or whose raw length exceeds 1000 is rejected —
each with an `error` envelope and no store change.  Otherwise the stripped
content is persisted via `send_message` and `new_message` is broadcast to
the room. -/
def handle_send_message (ghost_id : String) (room_id content : Option String)
    (message_id : String) (now : Nat) (reg : Registry) (s : Store) :
    Registry × Store × List Action :=
  let rid := room_id.getD ""
  let c := content.getD ""
  if rid = "" ∨ c = "" then
    (reg, s, [Action.send ghost_id (Payload.error "Room ID and content are required")])
  else if rid ∉ cache_of reg ghost_id then
    (reg, s, [Action.send ghost_id (Payload.error "You are not in this room")])
  else if (strTrim c).length = 0 ∨ c.length > 1000 then
    (reg, s, [Action.send ghost_id (Payload.error "Invalid message content")])
  else
    let ms := RedisManager.send_message ghost_id rid (strTrim c) message_id now s
    (reg, ms.2, [Action.broadcast rid none (Payload.new_message ms.1)])

end WebSocketManager

end GhostChat

namespace GhostChat

namespace WebSocketManager

theorem leave_room_internal_conns (g r : String) (reg : Registry) (s : Store) :
    (leave_room_internal g r reg s).1.active_connections = reg.active_connections := by
  unfold leave_room_internal
  cases h : aget g reg.ghost_rooms <;> simp [h]

theorem disconnect_loop_conns (g : String) (l : List String) :
    ∀ (reg : Registry) (s : Store) (acts : List Action),
      (disconnect_loop g l (reg, s, acts)).1.active_connections
        = reg.active_connections := by
  induction l with
  | nil => intro reg s acts; rfl
  | cons r rest ih =>
    intro reg s acts
    simp only [disconnect_loop]
    rw [ih]
    exact leave_room_internal_conns g r reg s

/-- After `disconnect g`, the ghost is no longer registered. -/
theorem disconnect_removes_connection (g : String) (reg : Registry) (s : Store) :
    g ∉ (disconnect g reg s).1.active_connections := by
  unfold disconnect
  by_cases h : g ∈ reg.active_connections
  · rw [if_pos h]
    simp [srem]
  · rw [if_neg h]
    exact h

end WebSocketManager

/-- Claim C3 (amended): after `disconnect(g)` followed by `connect(g)`,
the registry treats `g` as a NEW connection and its cached room set is
empty — membership is not restored from the store.  The store-sourced
restoration of the cached room set happens exactly when `connect`
supersedes a still-registered connection for `g` (no intervening
`disconnect`): then the cache becomes `get_user_rooms g s`. -/
theorem reconnection_semantics (reg : Registry) (s : Store) (g : String) (now : Nat)
    (hv : is_valid_ghost_id g now = true) :
    aget g ((WebSocketManager.connect g now
        (WebSocketManager.disconnect g reg s).1
        (WebSocketManager.disconnect g reg s).2.1).1).ghost_rooms = some [] ∧
    (g ∈ reg.active_connections →
      aget g ((WebSocketManager.connect g now reg s).1).ghost_rooms
        = some (RedisManager.get_user_rooms g s)) := by
  constructor
  · have hnot : g ∉ (WebSocketManager.disconnect g reg s).1.active_connections :=
      WebSocketManager.disconnect_removes_connection g reg s
    simp only [WebSocketManager.connect]
    rw [if_neg (by simp [hv])]
    simp only [if_neg hnot]
    rw [aget_aset_self]
  · intro hconn
    simp only [WebSocketManager.connect]
    rw [if_neg (by simp [hv])]
    simp only [if_pos hconn]
    rw [aget_aset_self]

def c3Ghost : String := "ghost_1_0123456789abcdef"

def c3Reg : Registry :=
  { active_connections := [c3Ghost],
    ghost_rooms := [(c3Ghost, [])],
    heartbeat_tasks := [c3Ghost] }

/-- Store state in which `c3Ghost` is a member of exactly rooms
`roomA` and `roomB`. -/
def c3Store : Store :=
  { room_members := [("roomA", ⟨[c3Ghost], some 604800⟩),
      ("roomB", ⟨[c3Ghost], some 604800⟩)],
    all_rooms := ["roomA", "roomB"] }

/-- Claim C3, counterexample to the unamended claim: `c3Ghost`'s store
membership sets are exactly `{roomA, roomB}`, yet after
`disconnect; connect` the registry's cached room set for it is the empty
set, not `{roomA, roomB}` — `disconnect` removed the registry entry, so
the reconnect is classified as a new connection and no store query is
made. -/
theorem reconnection_counterexample :
    RedisManager.get_user_rooms c3Ghost c3Store = ["roomA", "roomB"] ∧
    aget c3Ghost
      ((WebSocketManager.connect c3Ghost 99999999
          (WebSocketManager.disconnect c3Ghost c3Reg c3Store).1
          (WebSocketManager.disconnect c3Ghost c3Reg c3Store).2.1).1).ghost_rooms
      = some [] := by
  decide

/-- Witness for `reconnection_semantics`: the concrete registry/store
above, with the superseding-connect clause exercised (`c3Ghost` is
registered in `c3Reg`). -/
theorem reconnection_semantics_witness :
    is_valid_ghost_id c3Ghost 99999999 = true ∧
    c3Ghost ∈ c3Reg.active_connections ∧
    (aget c3Ghost ((WebSocketManager.connect c3Ghost 99999999
        (WebSocketManager.disconnect c3Ghost c3Reg c3Store).1
        (WebSocketManager.disconnect c3Ghost c3Reg c3Store).2.1).1).ghost_rooms = some [] ∧
     (c3Ghost ∈ c3Reg.active_connections →
       aget c3Ghost ((WebSocketManager.connect c3Ghost 99999999 c3Reg c3Store).1).ghost_rooms
         = some (RedisManager.get_user_rooms c3Ghost c3Store))) :=
  ⟨by decide, by decide,
   reconnection_semantics c3Reg c3Store c3Ghost 99999999 (by decide)⟩

end GhostChat

namespace GhostChat

/-- Claim C8: for a connected sender cached in the target room, the
message is stored and broadcast iff the content is non-empty after
stripping whitespace and its raw length is at most 1000; otherwise an
`error` envelope goes to the sender and the store is untouched. -/
theorem send_message_validation (reg : Registry) (s : Store) (g rid c mid : String)
    (now : Nat) (hconn : g ∈ reg.active_connections) (hrid : rid ≠ "")
    (hmem : rid ∈ cache_of reg g) :
    ((strTrim c).length ≠ 0 ∧ c.length ≤ 1000 →
      (WebSocketManager.handle_send_message g (some rid) (some c) mid now reg s).2.1.messages
          = aset (messageKey rid mid)
              ⟨{ id := mid, sender := g, content := strTrim c, room_id := rid,
                 timestamp := now }, some MESSAGE_TTL⟩ s.messages ∧
      aget rid
          (WebSocketManager.handle_send_message g (some rid) (some c) mid now
            reg s).2.1.room_messages
        = some ⟨messageKey rid mid :: ((aget rid s.room_messages).map Entry.val).getD [],
                some ROOM_TTL⟩ ∧
      Action.broadcast rid none (Payload.new_message
          { id := mid, sender := g, content := strTrim c, room_id := rid, timestamp := now })
        ∈ (WebSocketManager.handle_send_message g (some rid) (some c) mid now reg s).2.2) ∧
    ((strTrim c).length = 0 ∨ c.length > 1000 →
      (WebSocketManager.handle_send_message g (some rid) (some c) mid now reg s).2.1 = s ∧
      (∃ msg, Action.send g (Payload.error msg)
        ∈ (WebSocketManager.handle_send_message g (some rid) (some c) mid now reg s).2.2)) := by
  constructor
  · intro hok
    have hc : c ≠ "" := by
      intro he
      apply hok.1
      rw [he]
      rfl
    simp only [WebSocketManager.handle_send_message, Option.getD]
    rw [if_neg (by
      intro hor
      rcases hor with h | h
      · exact hrid h
      · exact hc h)]
    rw [if_neg (fun hn => hn hmem)]
    rw [if_neg (by
      intro hor
      rcases hor with h | h
      · exact hok.1 h
      · exact absurd h (Nat.not_lt.mpr hok.2))]
    simp only [RedisManager.send_message, RedisManager.update_ghost_activity]
    refine ⟨?_, ?_, ?_⟩
    · cases hses : aget g s.sessions <;> simp [hses]
    · cases hses : aget g s.sessions <;>
        cases hrm : aget rid s.room_messages <;>
          simp [hses, hrm, aget_aset_self, Option.getD]
    · cases hses : aget g s.sessions <;> simp [hses]
  · intro hbad
    by_cases hc : c = ""
    · simp only [WebSocketManager.handle_send_message, Option.getD]
      rw [if_pos (Or.inr hc)]
      exact ⟨rfl, ⟨"Room ID and content are required", List.mem_singleton.mpr rfl⟩⟩
    · simp only [WebSocketManager.handle_send_message, Option.getD]
      rw [if_neg (by
        intro hor
        rcases hor with h | h
        · exact hrid h
        · exact hc h)]
      rw [if_neg (fun hn => hn hmem)]
      rw [if_pos hbad]
      exact ⟨rfl, ⟨"Invalid message content", List.mem_singleton.mpr rfl⟩⟩

/-- Concrete registry/store for the `send_message_validation` witness. -/
def c8Reg : Registry :=
  { active_connections := ["ghost_1_00000000000000aa"],
    ghost_rooms := [("ghost_1_00000000000000aa", ["room_9_beef"])],
    heartbeat_tasks := ["ghost_1_00000000000000aa"] }

theorem send_message_validation_witness :
    "ghost_1_00000000000000aa" ∈ c8Reg.active_connections ∧
    ("room_9_beef" : String) ≠ "" ∧
    "room_9_beef" ∈ cache_of c8Reg "ghost_1_00000000000000aa" ∧
    (((strTrim "  hi  ").length ≠ 0 ∧ ("  hi  " : String).length ≤ 1000 →
      (WebSocketManager.handle_send_message "ghost_1_00000000000000aa" (some "room_9_beef")
          (some "  hi  ") "msg_1" 5 c8Reg {}).2.1.messages
          = aset (messageKey "room_9_beef" "msg_1")
              ⟨{ id := "msg_1", sender := "ghost_1_00000000000000aa",
                 content := strTrim "  hi  ", room_id := "room_9_beef",
                 timestamp := 5 }, some MESSAGE_TTL⟩ ({} : Store).messages ∧
      aget "room_9_beef"
          (WebSocketManager.handle_send_message "ghost_1_00000000000000aa" (some "room_9_beef")
            (some "  hi  ") "msg_1" 5 c8Reg {}).2.1.room_messages
        = some ⟨messageKey "room_9_beef" "msg_1"
                  :: ((aget "room_9_beef" ({} : Store).room_messages).map Entry.val).getD [],
                some ROOM_TTL⟩ ∧
      Action.broadcast "room_9_beef" none (Payload.new_message
          { id := "msg_1", sender := "ghost_1_00000000000000aa", content := strTrim "  hi  ",
            room_id := "room_9_beef", timestamp := 5 })
        ∈ (WebSocketManager.handle_send_message "ghost_1_00000000000000aa" (some "room_9_beef")
            (some "  hi  ") "msg_1" 5 c8Reg {}).2.2) ∧
    ((strTrim "  hi  ").length = 0 ∨ ("  hi  " : String).length > 1000 →
      (WebSocketManager.handle_send_message "ghost_1_00000000000000aa" (some "room_9_beef")
          (some "  hi  ") "msg_1" 5 c8Reg {}).2.1 = ({} : Store) ∧
      (∃ msg, Action.send "ghost_1_00000000000000aa" (Payload.error msg)
        ∈ (WebSocketManager.handle_send_message "ghost_1_00000000000000aa" (some "room_9_beef")
            (some "  hi  ") "msg_1" 5 c8Reg {}).2.2))) :=
  ⟨by decide, by decide, by decide,
   send_message_validation c8Reg {} "ghost_1_00000000000000aa" "room_9_beef" "  hi  "
     "msg_1" 5 (by decide) (by decide) (by decide)⟩

end GhostChat

namespace GhostChat

/-! ## Claim C9: `_handle_join_room` leaves every other room first. -/

theorem aget_srem_key_other (r' r g : String)
    (m : List (String × Entry (List String))) (h : r' ≠ r) :
    aget r (RedisManager.srem_key r' g m) = aget r m := by
  unfold RedisManager.srem_key
  cases hm : aget r' m with
  | none => rfl
  | some e =>
    by_cases hv : srem g e.val = []
    · simp [hv, aget_adel_ne r' r m h]
    · simp [hv, aget_aset_ne r' r _ m h]

theorem members_leave_self (g r : String) (s : Store) :
    g ∉ members_of (RedisManager.leave_room g r s) r := by
  simp only [RedisManager.leave_room]
  cases h : aget r s.rooms with
  | none =>
    simp only [h]
    exact membersAt_srem_key_self r g s.room_members
  | some e0 =>
    simp only [h]
    by_cases hp : scard (members_of { s with
        room_members := RedisManager.srem_key r g s.room_members } r) = 0 ∧ ¬ e0.val.is_public
    · rw [if_pos hp]
      simp [RedisManager.delete_room, members_of, aget_adel_self]
    · rw [if_neg hp]
      by_cases hpub : e0.val.is_public
      · rw [if_pos hpub]
        exact membersAt_srem_key_self r g s.room_members
      · rw [if_neg hpub]
        exact membersAt_srem_key_self r g s.room_members

theorem members_leave_other (g r' r : String) (s : Store) (h : r' ≠ r) :
    members_of (RedisManager.leave_room g r' s) r = members_of s r := by
  simp only [RedisManager.leave_room]
  cases hh : aget r' s.rooms with
  | none =>
    simp only [hh]
    simp [members_of, aget_srem_key_other r' r g s.room_members h]
  | some e0 =>
    simp only [hh]
    by_cases hp : scard (members_of { s with
        room_members := RedisManager.srem_key r' g s.room_members } r') = 0 ∧ ¬ e0.val.is_public
    · rw [if_pos hp]
      simp [RedisManager.delete_room, members_of, aget_adel_ne r' r _ h,
        aget_srem_key_other r' r g s.room_members h]
    · rw [if_neg hp]
      by_cases hpub : e0.val.is_public
      · rw [if_pos hpub]
        simp [members_of, aget_srem_key_other r' r g s.room_members h]
      · rw [if_neg hpub]
        simp [members_of, aget_srem_key_other r' r g s.room_members h]

theorem members_join_self (g rid : String) (s : Store) :
    g ∈ members_of (RedisManager.join_room g rid s) rid := by
  simp only [RedisManager.join_room]
  cases h : aget rid s.rooms with
  | none =>
    simp only [h]
    simp [members_of, aget_aset_self, mem_sadd]
  | some e =>
    simp only [h]
    simp [members_of, aget_aset_self, mem_sadd]

theorem members_join_other (g rid r : String) (s : Store) (h : rid ≠ r) :
    members_of (RedisManager.join_room g rid s) r = members_of s r := by
  simp only [RedisManager.join_room]
  cases hh : aget rid s.rooms with
  | none =>
    simp only [hh]
    simp [members_of, aget_aset_ne rid r _ _ h]
  | some e =>
    simp only [hh]
    simp [members_of, aget_aset_ne rid r _ _ h]

theorem cache_of_aset_self (reg : Registry) (g : String) (l : List String) :
    cache_of { reg with ghost_rooms := aset g l reg.ghost_rooms } g = l := by
  simp [cache_of, aget_aset_self]

theorem clean_switch_cache_subset (g rid : String) (l : List String) :
    ∀ (reg : Registry) (s : Store) (x : String),
      x ∈ cache_of (WebSocketManager.clean_switch g rid l (reg, s)).1 g →
        x ∈ cache_of reg g := by
  induction l with
  | nil => intro reg s x hx; exact hx
  | cons r rest ih =>
    intro reg s x hx
    by_cases hr : r = rid
    · simp only [WebSocketManager.clean_switch, if_pos hr] at hx
      exact ih reg s x hx
    · simp only [WebSocketManager.clean_switch, if_neg hr] at hx
      have h2 := ih _ _ x hx
      rw [cache_of_aset_self] at h2
      exact ((mem_srem r x (cache_of reg g)).mp h2).1

theorem clean_switch_cache_removed (g rid : String) (l : List String) :
    ∀ (reg : Registry) (s : Store) (x : String), x ∈ l → x ≠ rid →
      x ∉ cache_of (WebSocketManager.clean_switch g rid l (reg, s)).1 g := by
  induction l with
  | nil => intro reg s x hx _; cases hx
  | cons r rest ih =>
    intro reg s x hx hne
    rcases List.mem_cons.mp hx with he | he
    · subst he
      simp only [WebSocketManager.clean_switch, if_neg hne]
      intro hmem
      have h2 := clean_switch_cache_subset g rid rest _ _ x hmem
      rw [cache_of_aset_self] at h2
      exact not_mem_srem x _ h2
    · by_cases hr : r = rid
      · simp only [WebSocketManager.clean_switch, if_pos hr]
        exact ih reg s x he hne
      · simp only [WebSocketManager.clean_switch, if_neg hr]
        exact ih _ _ x he hne

theorem clean_switch_store_preserve (g rid : String) (l : List String) :
    ∀ (reg : Registry) (s : Store) (r : String), g ∉ members_of s r →
      g ∉ members_of (WebSocketManager.clean_switch g rid l (reg, s)).2 r := by
  induction l with
  | nil => intro _ _ _ h; exact h
  | cons x rest ih =>
    intro reg s r h
    by_cases hx : x = rid
    · simp only [WebSocketManager.clean_switch, if_pos hx]
      exact ih _ _ r h
    · simp only [WebSocketManager.clean_switch, if_neg hx]
      apply ih
      by_cases hxr : x = r
      · subst hxr
        exact members_leave_self g x s
      · rw [members_leave_other g x r s hxr]
        exact h

theorem clean_switch_store_left (g rid : String) (l : List String) :
    ∀ (reg : Registry) (s : Store) (r : String), r ∈ l → r ≠ rid →
      g ∉ members_of (WebSocketManager.clean_switch g rid l (reg, s)).2 r := by
  induction l with
  | nil => intro _ _ _ h _; cases h
  | cons x rest ih =>
    intro reg s r hr hne
    rcases List.mem_cons.mp hr with he | he
    · subst he
      simp only [WebSocketManager.clean_switch, if_neg hne]
      exact clean_switch_store_preserve g rid rest _ _ r (members_leave_self g r s)
    · by_cases hx : x = rid
      · simp only [WebSocketManager.clean_switch, if_pos hx]
        exact ih reg s r he hne
      · simp only [WebSocketManager.clean_switch, if_neg hx]
        exact ih _ _ r he hne

/-- Claim C9: after a successful `join_room` request for room `rid` from a
connected ghost, the cached room set for the ghost is exactly the
singleton `{rid}`; in the store the ghost has been removed from every
other room it was cached in and added to `rid`. -/
theorem join_room_singleton_cache (reg : Registry) (s : Store) (g rid : String)
    (hconn : g ∈ reg.active_connections) (hrid : rid ≠ "") :
    (∀ x, x ∈ cache_of (WebSocketManager.handle_join_room g (some rid) reg s).1 g
        ↔ x = rid) ∧
    (∀ r, r ∈ cache_of reg g → r ≠ rid →
        g ∉ members_of (WebSocketManager.handle_join_room g (some rid) reg s).2.1 r) ∧
    g ∈ members_of (WebSocketManager.handle_join_room g (some rid) reg s).2.1 rid := by
  simp only [WebSocketManager.handle_join_room]
  rw [if_neg hrid]
  by_cases hO : (aget g reg.ghost_rooms).isSome = true
  · rw [if_pos hO]
    refine ⟨?_, ?_, ?_⟩
    · intro x
      rw [cache_of_aset_self]
      constructor
      · intro hx
        rcases (mem_sadd rid x _).mp hx with h | h
        · exact h
        · by_cases hxr : x = rid
          · exact hxr
          · exact absurd h
              (clean_switch_cache_removed g rid (cache_of reg g) reg s x
                (clean_switch_cache_subset g rid (cache_of reg g) reg s x h) hxr)
      · intro hx
        exact (mem_sadd rid x _).mpr (Or.inl hx)
    · intro r hr hne
      rw [members_join_other g rid r _ (Ne.symm hne)]
      exact clean_switch_store_left g rid (cache_of reg g) reg s r hr hne
    · exact members_join_self g rid _
  · rw [if_neg hO]
    have hnone : aget g reg.ghost_rooms = none := Option.not_isSome_iff_eq_none.mp hO
    refine ⟨?_, ?_, ?_⟩
    · intro x
      rw [cache_of_aset_self]
      constructor
      · intro hx
        rcases (mem_sadd rid x _).mp hx with h | h
        · exact h
        · have h2 := clean_switch_cache_subset g rid _ _ s x h
          rw [cache_of_aset_self] at h2
          cases h2
      · intro hx
        exact (mem_sadd rid x _).mpr (Or.inl hx)
    · intro r hr hne
      exfalso
      simp [cache_of, hnone] at hr
    · exact members_join_self g rid _

/-- Concrete registry/store for the `join_room_singleton_cache` witness:
the ghost is cached in `room_old` (and is a store member of it) and joins
`room_new`. -/
def c9Reg : Registry :=
  { active_connections := ["ghost_1_00000000000000aa"],
    ghost_rooms := [("ghost_1_00000000000000aa", ["room_old"])],
    heartbeat_tasks := ["ghost_1_00000000000000aa"] }

def c9Store : Store :=
  { room_members := [("room_old", ⟨["ghost_1_00000000000000aa"], some 604800⟩)],
    all_rooms := ["room_old"] }

theorem join_room_singleton_cache_witness :
    "ghost_1_00000000000000aa" ∈ c9Reg.active_connections ∧
    ("room_new" : String) ≠ "" ∧
    ((∀ x, x ∈ cache_of (WebSocketManager.handle_join_room "ghost_1_00000000000000aa"
          (some "room_new") c9Reg c9Store).1 "ghost_1_00000000000000aa" ↔ x = "room_new") ∧
     (∀ r, r ∈ cache_of c9Reg "ghost_1_00000000000000aa" → r ≠ "room_new" →
         "ghost_1_00000000000000aa" ∉ members_of
           (WebSocketManager.handle_join_room "ghost_1_00000000000000aa"
             (some "room_new") c9Reg c9Store).2.1 r) ∧
     "ghost_1_00000000000000aa" ∈ members_of
       (WebSocketManager.handle_join_room "ghost_1_00000000000000aa"
         (some "room_new") c9Reg c9Store).2.1 "room_new") :=
  ⟨by decide, by decide,
   join_room_singleton_cache c9Reg c9Store "ghost_1_00000000000000aa" "room_new"
     (by decide) (by decide)⟩

end GhostChat
